import Mathlib

/-!
# Verification of the drum-notation step sequencer core

Shallow embedding of the pattern/grid model and the playback scheduler of
`src/src/components/DrumGrid.vue`, together with theorems settling the
specification claims about them.

Modelling conventions:
* The Vue `pattern` ref (a plain JS object keyed by instrument id holding
  arrays of booleans) is embedded as an association list
  `Pattern := List (String × List Bool)`; property lookup is `findRow`,
  property update is `setRow`.
* JS reads of a missing array index yield `undefined`, which is falsy in the
  boolean positions the code uses it in; such reads are embedded as
  `List.getD _ _ false`.  A read of an index of `undefined` itself (missing
  object property) throws a `TypeError`; functions that can hit that path
  return `Option`/`Except`, with `none`/`.error` meaning the exception.
* JS numbers are embedded as `ℚ` where fractional values occur (the
  `gridSteps` computed property, durations, gains) and as `ℕ` where the code
  only ever holds non-negative integers (step indices, counts, tempo).
* The cooperative single-threaded event loop: external handlers
  (`stopPattern`, edits of the `tempo` ref) can only run while `playPattern`
  is suspended in its per-step `await`.  The environment therefore records,
  per step index, whether `stopPattern` runs during the await of that step
  (`stopAt`), and what the `tempo` ref holds at the moment each step begins
  (`tempoSched`).  Whether a `drumKit.play` call throws for a given drum and
  step is recorded by `playFails`.
-/

set_option maxRecDepth 4000

namespace DrumGrid

/-- One entry of the `drums` ref (DrumGrid.vue lines 5–14). -/
structure Drum where
  id : String
  name : String
  sound : String
  midiNote : ℕ
deriving Repr, DecidableEq

/-- The fixed instrument set (DrumGrid.vue lines 5–14). -/
def drums : List Drum :=
  [ ⟨"crash", "Crash", "crash", 49⟩,
    ⟨"ride", "Ride", "ride", 51⟩,
    ⟨"tom1", "Tom 1", "tom1", 48⟩,
    ⟨"tom2", "Tom 2", "tom2", 45⟩,
    ⟨"tom3", "Tom 3", "tom3", 43⟩,
    ⟨"hihat", "Hi-Hat", "hihat", 42⟩,
    ⟨"snare", "Snare", "snare", 38⟩,
    ⟨"kick", "Kick", "kick", 36⟩ ]

/-- The value held by the `pattern` ref: instrument id ↦ boolean step array. -/
def Pattern : Type := List (String × List Bool)

instance : DecidableEq Pattern := by
  unfold Pattern
  infer_instance

/-- Initial value of the `pattern` ref: the empty object `{}`
(DrumGrid.vue line 37). -/
def initialPattern : Pattern := []

/-- JS object property read `pattern[id]`: first entry with the given key. -/
def findRow (p : Pattern) (id : String) : Option (List Bool) :=
  match p with
  | [] => none
  | e :: rest => if e.1 = id then some e.2 else findRow rest id

/-- JS object property write `pattern[id] = row` on an existing key:
replaces the value at every entry carrying that key (well-formed patterns
have at most one). -/
def setRow (p : Pattern) (id : String) (row : List Bool) : Pattern :=
  p.map (fun e => if e.1 = id then (e.1, row) else e)

/-- The `gridSteps` computed property (DrumGrid.vue lines 22–24):
`barCount * subdivision * (timeSignature / 4)`, with JS `/` being exact
division. -/
def gridStepsQ (barCount subdivision timeSignature : ℕ) : ℚ :=
  (barCount : ℚ) * (subdivision : ℚ) * ((timeSignature : ℚ) / 4)

/-- The integer number of steps actually used to size arrays; for the valid
shape domain (`4 ∣ subdivision`) it coincides with `gridStepsQ`
(proved below). -/
def totalSteps (barCount subdivision timeSignature : ℕ) : ℕ :=
  barCount * subdivision * timeSignature / 4

/-- Body of the `forEach` inside `initializePattern` for one drum
(DrumGrid.vue lines 44–56): take the existing row if present
(`pattern.value[drum.id] || Array(steps).fill(false)`), then extend with
`false` or truncate to `steps`. -/
def resizeRow (old : Option (List Bool)) (steps : ℕ) : List Bool :=
  let row := old.getD (List.replicate steps false)
  if row.length < steps then
    row ++ List.replicate (steps - row.length) false
  else if steps < row.length then
    row.take steps
  else
    row

/-- Embedding of `initializePattern` (DrumGrid.vue lines 40–59): rebuild the pattern
object with one entry per drum, resizing each row to `steps`. -/
def initializePattern (p : Pattern) (steps : ℕ) : Pattern :=
  drums.map (fun d => (d.id, resizeRow (findRow p d.id) steps))

/-- Embedding of `toggleCell` (DrumGrid.vue lines 92–94):
`pattern.value[drumId][step] = !pattern.value[drumId][step]`.
`none` is the `TypeError` thrown when `pattern.value[drumId]` is
`undefined`.  For `step` beyond the row, the read is `undefined` (falsy,
so `!` gives `true`) and the write extends the JS array to length
`step + 1`, the skipped positions reading back as `undefined` (falsy,
embedded `false`). -/
def toggleCell (p : Pattern) (drumId : String) (step : ℕ) : Option Pattern :=
  match findRow p drumId with
  | none => none
  | some row =>
      let newVal := !(row.getD step false)
      let newRow :=
        if step < row.length then
          row.set step newVal
        else
          row ++ List.replicate (step - row.length) false ++ [newVal]
      some (setRow p drumId newRow)

/-- The keys of a pattern are pairwise distinct (holds for every pattern the
component ever stores, since `initializePattern` keys by the distinct
drum ids). -/
def keysNodup (p : Pattern) : Prop := (p.map Prod.fst).Nodup

instance (p : Pattern) : Decidable (keysNodup p) := by
  unfold keysNodup
  infer_instance

/-- One `drumKit.play(midiNote, t, {gain, duration})` invocation
(DrumGrid.vue lines 112–115).  The `atTime` argument is the current audio-clock
time and carries no scheduling semantics here, so it is not
modelled. -/
structure TriggerCall where
  midiNote : ℕ
  gain : ℚ
  duration : ℚ
deriving Repr, DecidableEq

/-- The scheduler-relevant component refs. -/
structure SchedState where
  isPlaying : Bool
  currentStep : ℤ
  errorMessage : String
  drumKitLoaded : Bool
  audioContextSet : Bool
deriving Repr, DecidableEq

/-- Embedding of `stopPattern` (DrumGrid.vue lines 126–129). -/
def stopPattern (s : SchedState) : SchedState :=
  { s with isPlaying := false, currentStep := -1 }

/-- Environment of a `playPattern` run: the values the loop reads from the
component refs, plus the schedule of external events (which can only run
while the loop awaits, by the cooperative single-threaded model). -/
structure PlayEnv where
  gridSteps : ℕ
  subdivision : ℕ
  drumList : List Drum
  pattern : Pattern
  /-- value of the `tempo` ref at the moment step `n` begins -/
  tempoSched : ℕ → ℕ
  /-- Whether `stopPattern` is invoked during the await of step `n`. -/
  stopAt : ℕ → Bool
  /-- Whether `drumKit.play` throws for drum id `d` at step `n`. -/
  playFails : String → ℕ → Bool

/-- Observable actions of one run, in order: assignments to the
`currentStep` ref, `drumKit.play` calls, and the per-step awaits with
their durations in seconds. -/
inductive Event where
  | cursor (value : ℤ)
  | trig (call : TriggerCall)
  | wait (seconds : ℚ)
deriving Repr, DecidableEq

/-- The trigger call the active cell of a drum produces
(DrumGrid.vue lines 112–115). -/
def mkCall (d : Drum) : TriggerCall :=
  ⟨d.midiNote, 1.5, 0.2⟩

/-- The `drums.value.forEach` body of one step (DrumGrid.vue lines
110–117): read `pattern.value[drum.id][step]` (TypeError — `.error` — if
the row is missing), and for a truthy cell call `drumKit.play`, which may
itself throw.  An exception propagates out of `forEach`, so the result is
`.error done` with `done` the calls dispatched before the throw. -/
def fireStep (ds : List Drum) (p : Pattern) (playFails : String → ℕ → Bool)
    (step : ℕ) : Except (List TriggerCall) (List TriggerCall) :=
  match ds with
  | [] => .ok []
  | d :: rest =>
      match findRow p d.id with
      | none => .error []
      | some row =>
          if row.getD step false then
            if playFails d.id step then .error []
            else
              match fireStep rest p playFails step with
              | .error done => .error (mkCall d :: done)
              | .ok done => .ok (mkCall d :: done)
          else fireStep rest p playFails step

/-- The `for` loop of `playPattern` (DrumGrid.vue lines 105–120) over the
list of remaining step indices, followed by the trailing
`currentStep.value = -1; isPlaying.value = false` (lines 122–123).
Returns the final state, the event trace, and whether an exception
escaped the loop (skipping the trailing lines). -/
def runLoop (env : PlayEnv) (stepDuration : ℚ) :
    SchedState → List ℕ → SchedState × List Event × Bool
  | s, [] =>
      ({ s with currentStep := -1, isPlaying := false }, [Event.cursor (-1)], false)
  | s, step :: rest =>
      if s.isPlaying then
        let s1 : SchedState := { s with currentStep := (step : ℤ) }
        match fireStep env.drumList env.pattern env.playFails step with
        | .error done =>
            (s1, Event.cursor (step : ℤ) :: done.map Event.trig, true)
        | .ok done =>
            let s2 := if env.stopAt step then stopPattern s1 else s1
            let r := runLoop env stepDuration s2 rest
            (r.1, Event.cursor (step : ℤ) :: (done.map Event.trig
                    ++ Event.wait stepDuration :: r.2.1), r.2.2)
      else
        ({ s with currentStep := -1, isPlaying := false }, [Event.cursor (-1)], false)

/-- Embedding of `playPattern` (DrumGrid.vue lines 96–124): guard on
`!drumKit.value || !audioContext.value`, set `isPlaying`, capture
`stepDuration = (60 / tempo.value) / (subdivision.value / 4)` once, run
the loop over steps `0 .. gridSteps − 1`. -/
def playPattern (env : PlayEnv) (s : SchedState) :
    SchedState × List Event × Bool :=
  if !s.drumKitLoaded || !s.audioContextSet then
    ({ s with errorMessage :=
        "Drum kit not loaded yet. Please wait or refresh the page." }, [], false)
  else
    let s1 : SchedState := { s with isPlaying := true }
    let stepDuration : ℚ :=
      (60 / (env.tempoSched 0 : ℚ)) / ((env.subdivision : ℚ) / 4)
    runLoop env stepDuration s1 (List.range env.gridSteps)

/-- Truthiness of `pattern.value[id][step]` when used only as a condition:
a missing row or missing index is falsy. -/
def cellOn (p : Pattern) (id : String) (step : ℕ) : Bool :=
  ((findRow p id).getD []).getD step false

/-- The calls a fault-free step dispatches: one per drum, in `drums` order,
for exactly the drums whose cell at `step` is on. -/
def activeTriggers (ds : List Drum) (p : Pattern) (step : ℕ) : List TriggerCall :=
  (ds.filter (fun d => cellOn p d.id step)).map mkCall

/-- Events of one fault-free, unstopped loop iteration. -/
def stepEvents (ds : List Drum) (p : Pattern) (dur : ℚ) (step : ℕ) : List Event :=
  Event.cursor (step : ℤ) :: ((activeTriggers ds p step).map Event.trig
    ++ [Event.wait dur])

/-- Trace of a run that executes exactly the iterations in `steps` and then
leaves the loop normally. -/
def cleanTrace (ds : List Drum) (p : Pattern) (dur : ℚ) (steps : List ℕ) :
    List Event :=
  steps.flatMap (stepEvents ds p dur) ++ [Event.cursor (-1)]

/-- Every drum in `ds` has a row in `p` (no `TypeError` path is reachable). -/
def wfFor (ds : List Drum) (p : Pattern) : Prop :=
  ∀ d ∈ ds, (findRow p d.id).isSome = true

instance (ds : List Drum) (p : Pattern) : Decidable (wfFor ds p) := by
  unfold wfFor
  infer_instance

/-- The `currentStep` values a trace assigns, in order. -/
def cursorValues (tr : List Event) : List ℤ :=
  tr.filterMap (fun e => match e with | Event.cursor c => some c | _ => none)

/-- The await durations a trace records, in order. -/
def waitValues (tr : List Event) : List ℚ :=
  tr.filterMap (fun e => match e with | Event.wait d => some d | _ => none)

/-- Number of `drumKit.play` calls a trace records. -/
def trigCount (tr : List Event) : ℕ :=
  tr.countP (fun e => match e with | Event.trig _ => true | _ => false)

/-- State after loading succeeded, before any playback: `onMounted` set
`drumKit` and `audioContext`, playback idle. -/
def readyIdle : SchedState :=
  { isPlaying := false, currentStep := -1, errorMessage := "",
    drumKitLoaded := true, audioContextSet := true }

/-- A 2-step pattern with snare and kick on at step 0, everything else off. -/
def failPattern : Pattern :=
  [ ("crash", [false, false]), ("ride", [false, false]),
    ("tom1", [false, false]), ("tom2", [false, false]),
    ("tom3", [false, false]), ("hihat", [false, false]),
    ("snare", [true, false]), ("kick", [true, false]) ]

/-- A 1-step pattern with only the kick on. -/
def kickPattern : Pattern :=
  [ ("crash", [false]), ("ride", [false]), ("tom1", [false]),
    ("tom2", [false]), ("tom3", [false]), ("hihat", [false]),
    ("snare", [false]), ("kick", [true]) ]

/-- Environment of 8 fault-free steps at subdivision 16; the `tempo` ref is
edited from 120
to 240 during the await of step 3, so it reads 240 from step 4 on. -/
def envTempo : PlayEnv :=
  { gridSteps := 8, subdivision := 16, drumList := drums,
    pattern := initializePattern initialPattern 8,
    tempoSched := fun n => if n < 4 then 120 else 240,
    stopAt := fun _ => false, playFails := fun _ _ => false }

/-- Environment of 2 steps; `drumKit.play` throws for the snare at step 0,
where both the
snare and the kick are on. -/
def envFail : PlayEnv :=
  { gridSteps := 2, subdivision := 16, drumList := drums,
    pattern := failPattern, tempoSched := fun _ => 120,
    stopAt := fun _ => false, playFails := fun id _ => id == "snare" }

/-- A single fault-free step with the kick on. -/
def envOne : PlayEnv :=
  { gridSteps := 1, subdivision := 16, drumList := drums,
    pattern := kickPattern, tempoSched := fun _ => 120,
    stopAt := fun _ => false, playFails := fun _ _ => false }

/-- Environment of 4 fault-free steps; `stopPattern` is invoked during the
await of step 1. -/
def envStop : PlayEnv :=
  { gridSteps := 4, subdivision := 16, drumList := drums,
    pattern := initializePattern initialPattern 4,
    tempoSched := fun _ => 120,
    stopAt := fun n => n == 1, playFails := fun _ _ => false }

/-- State while the soundfont is still loading: `drumKit` is null. -/
def loadingIdle : SchedState :=
  { isPlaying := false, currentStep := -1, errorMessage := "",
    drumKitLoaded := false, audioContextSet := true }

/-- A state in which playback is already Running at step 5. -/
def playingState : SchedState :=
  { isPlaying := true, currentStep := 5, errorMessage := "",
    drumKitLoaded := true, audioContextSet := true }

/-! ## Association-list lemmas -/

theorem findRow_setRow_self {p : Pattern} {id : String} {row : List Bool}
    (h : findRow p id = some row) (r : List Bool) :
    findRow (setRow p id r) id = some r := by
  induction p with
  | nil => simp [findRow] at h
  | cons e rest ih =>
      by_cases he : e.1 = id
      · simp [findRow, setRow, he]
      · simp only [findRow, he, if_false] at h
        simpa [findRow, setRow, he] using ih h

theorem findRow_setRow_ne {p : Pattern} {id id2 : String} (r : List Bool)
    (h : id2 ≠ id) : findRow (setRow p id r) id2 = findRow p id2 := by
  induction p with
  | nil => rfl
  | cons e rest ih =>
      by_cases he : e.1 = id
      · have hne2 : e.1 ≠ id2 := by rw [he]; exact fun hc => h hc.symm
        simp only [setRow, List.map_cons, if_pos he, findRow, if_neg hne2]
        simpa [setRow] using ih
      · simp only [setRow, List.map_cons, if_neg he, findRow]
        simp only [setRow] at ih
        by_cases he2 : e.1 = id2
        · rw [if_pos he2, if_pos he2]
        · rw [if_neg he2, if_neg he2]
          exact ih

theorem setRow_setRow (p : Pattern) (id : String) (r1 r2 : List Bool) :
    setRow (setRow p id r1) id r2 = setRow p id r2 := by
  unfold setRow
  rw [List.map_map]
  have hfun : ((fun e : String × List Bool => if e.1 = id then (e.1, r2) else e)
        ∘ (fun e : String × List Bool => if e.1 = id then (e.1, r1) else e))
      = (fun e : String × List Bool => if e.1 = id then (e.1, r2) else e) := by
    funext e
    by_cases he : e.1 = id <;> simp [he]
  rw [hfun]

theorem setRow_of_not_mem {p : Pattern} {id : String} (r : List Bool)
    (h : id ∉ p.map Prod.fst) : setRow p id r = p := by
  induction p with
  | nil => rfl
  | cons e rest ih =>
      simp only [List.map_cons, List.mem_cons, not_or] at h
      have he : e.1 ≠ id := fun hc => h.1 hc.symm
      simp only [setRow, List.map_cons, if_neg he]
      have htail : setRow rest id r = rest := ih h.2
      simp only [setRow] at htail
      rw [htail]

theorem setRow_self {p : Pattern} {id : String} {row : List Bool}
    (hn : keysNodup p) (h : findRow p id = some row) :
    setRow p id row = p := by
  induction p with
  | nil => rfl
  | cons e rest ih =>
      simp only [keysNodup, List.map_cons, List.nodup_cons] at hn
      by_cases he : e.1 = id
      · simp only [findRow, he, if_true, Option.some.injEq] at h
        have hmem : id ∉ rest.map Prod.fst := he ▸ hn.1
        simp only [setRow, List.map_cons, if_pos he]
        have h2 : setRow rest id row = rest := setRow_of_not_mem _ hmem
        simp only [setRow] at h2
        rw [h2, ← h]
      · simp only [findRow, he, if_false] at h
        simp only [setRow, List.map_cons, if_neg he]
        have h2 := ih hn.2 h
        simp only [setRow] at h2
        rw [h2]

theorem findRow_isSome_of_mem_keys {p : Pattern} {id : String}
    (h : id ∈ p.map Prod.fst) : (findRow p id).isSome = true := by
  induction p with
  | nil => simp at h
  | cons e rest ih =>
      by_cases he : e.1 = id
      · simp [findRow, he]
      · simp only [List.map_cons, List.mem_cons] at h
        rcases h with h | h
        · exact absurd h.symm he
        · simpa [findRow, he] using ih h

/-! ## Resize lemmas -/

theorem length_resizeRow (old : Option (List Bool)) (steps : ℕ) :
    (resizeRow old steps).length = steps := by
  unfold resizeRow
  rcases old with _ | row
  · simp
  · simp only [Option.getD_some]
    by_cases h1 : row.length < steps
    · simp [h1]; omega
    · by_cases h2 : steps < row.length
      · simp [h1, h2]; omega
      · simp [h1, h2]; omega

theorem getD_resizeRow_low {row : List Bool} {steps i : ℕ}
    (hi : i < row.length) (hs : i < steps) :
    (resizeRow (some row) steps).getD i false = row.getD i false := by
  unfold resizeRow
  simp only [Option.getD_some]
  by_cases h1 : row.length < steps
  · simp only [h1, if_true]
    rw [List.getD_eq_getElem?_getD, List.getElem?_append_left hi,
      ← List.getD_eq_getElem?_getD]
  · by_cases h2 : steps < row.length
    · simp only [h1, if_false, h2, if_true]
      rw [List.getD_eq_getElem?_getD, List.getElem?_take_of_lt hs,
        ← List.getD_eq_getElem?_getD]
    · simp [h1, h2]

theorem getD_resizeRow_high {row : List Bool} {steps i : ℕ}
    (hi : row.length ≤ i) (hs : i < steps) :
    (resizeRow (some row) steps).getD i false = false := by
  unfold resizeRow
  simp only [Option.getD_some]
  have h1 : row.length < steps := lt_of_le_of_lt hi hs
  simp only [h1, if_true]
  rw [List.getD_eq_getElem?_getD, List.getElem?_append_right hi]
  simp

theorem resizeRow_none (steps : ℕ) :
    resizeRow none steps = List.replicate steps false := by
  simp [resizeRow]

/-! ## initializePattern lemmas -/

theorem drums_ids_nodup : (drums.map Drum.id).Nodup := by decide

theorem map_fst_initializePattern (p : Pattern) (steps : ℕ) :
    (initializePattern p steps).map Prod.fst = drums.map Drum.id := by
  simp [initializePattern]

theorem findRow_map_of_nodup {ds : List Drum} {d : Drum}
    (f : Drum → List Bool) (hn : (ds.map Drum.id).Nodup) (hd : d ∈ ds) :
    findRow (ds.map (fun x => (x.id, f x))) d.id = some (f d) := by
  induction ds with
  | nil => simp at hd
  | cons x rest ih =>
      simp only [List.map_cons, List.nodup_cons] at hn
      rcases List.mem_cons.mp hd with rfl | hd2
      · simp [findRow]
      · have hne : x.id ≠ d.id := by
          intro hc
          exact hn.1 (hc ▸ List.mem_map_of_mem Drum.id hd2)
        simp only [List.map_cons, findRow, if_neg hne]
        exact ih hn.2 hd2

theorem findRow_initializePattern {d : Drum} (hd : d ∈ drums)
    (p : Pattern) (steps : ℕ) :
    findRow (initializePattern p steps) d.id
      = some (resizeRow (findRow p d.id) steps) := by
  exact findRow_map_of_nodup (fun x => resizeRow (findRow p x.id) steps)
    drums_ids_nodup hd

/-- For every valid subdivision (multiple of 4) the float `gridSteps`
computed property is a whole number, namely `totalSteps`. -/
theorem gridStepsQ_eq_totalSteps {b s t : ℕ} (hs : 4 ∣ s) :
    gridStepsQ b s t = (totalSteps b s t : ℚ) := by
  obtain ⟨k, rfl⟩ := hs
  have hnat : totalSteps b (4 * k) t = b * k * t := by
    unfold totalSteps
    have : b * (4 * k) * t = 4 * (b * k * t) := by ring
    rw [this, Nat.mul_div_cancel_left _ (by norm_num)]
  rw [hnat]
  unfold gridStepsQ
  push_cast
  ring

theorem totalSteps_pos {b s t : ℕ} (hb : 1 ≤ b) (hs : 4 ≤ s) (ht : 1 ≤ t) :
    1 ≤ totalSteps b s t := by
  unfold totalSteps
  rw [Nat.le_div_iff_mul_le (by norm_num)]
  calc 1 * 4 = 1 * 4 * 1 := by ring
    _ ≤ b * s * t := by
        exact Nat.mul_le_mul (Nat.mul_le_mul hb hs) ht

/-! ## Scheduler lemmas -/

theorem fireStep_ok {ds : List Drum} {p : Pattern}
    {pf : String → ℕ → Bool} {step : ℕ} (hwf : wfFor ds p)
    (hnf : ∀ d ∈ ds, pf d.id step = false) :
    fireStep ds p pf step = .ok (activeTriggers ds p step) := by
  induction ds with
  | nil => rfl
  | cons d rest ih =>
      obtain ⟨row, hrow⟩ := Option.isSome_iff_exists.mp
        (hwf d (List.mem_cons_self d rest))
      have hcell : cellOn p d.id step = row.getD step false := by
        simp [cellOn, hrow]
      have ihr := ih (fun x hx => hwf x (List.mem_cons_of_mem d hx))
        (fun x hx => hnf x (List.mem_cons_of_mem d hx))
      by_cases hon : row.getD step false = true
      · have hg : row[step]?.getD false = true := by
          simpa [List.getD_eq_getElem?_getD] using hon
        have hcO : cellOn p d.id step = true := hcell.trans hon
        simp [fireStep, hrow, hg, hnf d (List.mem_cons_self d rest), ihr,
          activeTriggers, List.filter_cons, hcO]
      · simp only [Bool.not_eq_true] at hon
        have hg : row[step]?.getD false = false := by
          simpa [List.getD_eq_getElem?_getD] using hon
        have hcO : cellOn p d.id step = false := hcell.trans hon
        simp [fireStep, hrow, hg, ihr, activeTriggers, List.filter_cons, hcO]

theorem fireStep_error {ds1 ds2 : List Drum} {f : Drum} {p : Pattern}
    {pf : String → ℕ → Bool} {step : ℕ}
    (hwf : wfFor (ds1 ++ f :: ds2) p)
    (hnf : ∀ d ∈ ds1, pf d.id step = false)
    (hon : cellOn p f.id step = true) (hf : pf f.id step = true) :
    fireStep (ds1 ++ f :: ds2) p pf step
      = .error (activeTriggers ds1 p step) := by
  induction ds1 with
  | nil =>
      obtain ⟨row, hrow⟩ := Option.isSome_iff_exists.mp
        (hwf f (by simp))
      have hg : row[step]?.getD false = true := by
        have : row.getD step false = true := by
          simpa [cellOn, hrow] using hon
        simpa [List.getD_eq_getElem?_getD] using this
      simp [fireStep, hrow, hg, hf, activeTriggers]
  | cons d rest ih =>
      obtain ⟨row, hrow⟩ := Option.isSome_iff_exists.mp
        (hwf d (by simp))
      have hcell : cellOn p d.id step = row.getD step false := by
        simp [cellOn, hrow]
      have ihr := ih (fun x hx => hwf x (by simp [List.mem_append] at hx ⊢; tauto))
        (fun x hx => hnf x (List.mem_cons_of_mem d hx))
      by_cases hond : row.getD step false = true
      · have hg : row[step]?.getD false = true := by
          simpa [List.getD_eq_getElem?_getD] using hond
        have hcO : cellOn p d.id step = true := hcell.trans hond
        simp [fireStep, hrow, hg, hnf d (List.mem_cons_self d rest), ihr,
          activeTriggers, List.filter_cons, hcO]
      · simp only [Bool.not_eq_true] at hond
        have hg : row[step]?.getD false = false := by
          simpa [List.getD_eq_getElem?_getD] using hond
        have hcO : cellOn p d.id step = false := hcell.trans hond
        simp [fireStep, hrow, hg, ihr, activeTriggers, List.filter_cons, hcO]

theorem runLoop_not_playing (env : PlayEnv) (dur : ℚ) {s : SchedState}
    (h : s.isPlaying = false) (l : List ℕ) :
    runLoop env dur s l
      = ({ s with currentStep := -1, isPlaying := false },
         [Event.cursor (-1)], false) := by
  cases l with
  | nil => rfl
  | cons a rest => simp [runLoop, h]

theorem runLoop_cursor_irrelevant (env : PlayEnv) (dur : ℚ)
    (s : SchedState) (c : ℤ) (l : List ℕ) :
    runLoop env dur { s with currentStep := c } l = runLoop env dur s l := by
  cases l with
  | nil => rfl
  | cons a rest =>
      by_cases hp : s.isPlaying <;> simp [runLoop, hp]

theorem runLoop_state_eq (env : PlayEnv) (dur : ℚ) {s1 s2 : SchedState}
    (hp : s1.isPlaying = s2.isPlaying)
    (he : s1.errorMessage = s2.errorMessage)
    (hd : s1.drumKitLoaded = s2.drumKitLoaded)
    (ha : s1.audioContextSet = s2.audioContextSet) (l : List ℕ) :
    runLoop env dur s1 l = runLoop env dur s2 l := by
  cases s1 with
  | mk p1 c1 e1 d1 a1 =>
      cases s2 with
      | mk p2 c2 e2 d2 a2 =>
          simp only at hp he hd ha
          subst hp
          subst he
          subst hd
          subst ha
          exact runLoop_cursor_irrelevant env dur ⟨p1, c2, e1, d1, a1⟩ c1 l

theorem runLoop_clean_front (env : PlayEnv) (dur : ℚ) {s : SchedState}
    (hp : s.isPlaying = true) (hwf : wfFor env.drumList env.pattern)
    {pre : List ℕ}
    (hstop : ∀ m ∈ pre, env.stopAt m = false)
    (hnf : ∀ m ∈ pre, ∀ d ∈ env.drumList, env.playFails d.id m = false)
    (rest : List ℕ) :
    runLoop env dur s (pre ++ rest)
      = ((runLoop env dur s rest).1,
         pre.flatMap (stepEvents env.drumList env.pattern dur)
           ++ (runLoop env dur s rest).2.1,
         (runLoop env dur s rest).2.2) := by
  induction pre with
  | nil => simp
  | cons m pretail ih =>
      have hfire := fireStep_ok hwf (hnf m (List.mem_cons_self m pretail))
      have hstopm : env.stopAt m = false := hstop m (List.mem_cons_self m pretail)
      have ihr := ih (fun x hx => hstop x (List.mem_cons_of_mem m hx))
        (fun x hx => hnf x (List.mem_cons_of_mem m hx))
      have hmid : runLoop env dur
            { s with isPlaying := true, currentStep := (m : ℤ) }
            (pretail ++ rest)
          = runLoop env dur s (pretail ++ rest) :=
        runLoop_state_eq env dur (by simp [hp]) (by simp) (by simp) (by simp) _
      simp only [List.cons_append, runLoop, hp, if_true, hfire, hstopm,
        Bool.false_eq_true, if_false, List.append_eq]
      rw [hmid, ihr]
      simp [stepEvents]

/-- A fault-free, never-stopped loop executes every listed step in order
and finishes idle at cursor −1 with the clean trace. -/
theorem runLoop_clean (env : PlayEnv) (dur : ℚ) {s : SchedState}
    (hp : s.isPlaying = true) (hwf : wfFor env.drumList env.pattern)
    {steps : List ℕ}
    (hstop : ∀ m ∈ steps, env.stopAt m = false)
    (hnf : ∀ m ∈ steps, ∀ d ∈ env.drumList, env.playFails d.id m = false) :
    runLoop env dur s steps
      = ({ s with isPlaying := false, currentStep := -1 },
         cleanTrace env.drumList env.pattern dur steps, false) := by
  have h := runLoop_clean_front env dur hp hwf hstop hnf []
  simp only [List.append_nil] at h
  rw [h]
  simp only [runLoop, cleanTrace]

/-- A fault-free loop whose first stop request arrives during the await of
step `n` executes exactly steps `pre ++ [n]` and finishes idle at cursor −1. -/
theorem runLoop_stopped (env : PlayEnv) (dur : ℚ) {s : SchedState}
    (hp : s.isPlaying = true) (hwf : wfFor env.drumList env.pattern)
    {pre : List ℕ} {n : ℕ} {post : List ℕ}
    (hstop : ∀ m ∈ pre, env.stopAt m = false)
    (hstopn : env.stopAt n = true)
    (hnf : ∀ m ∈ pre ++ [n], ∀ d ∈ env.drumList, env.playFails d.id m = false) :
    runLoop env dur s (pre ++ n :: post)
      = ({ s with isPlaying := false, currentStep := -1 },
         cleanTrace env.drumList env.pattern dur (pre ++ [n]), false) := by
  have hpre := runLoop_clean_front env dur hp hwf hstop
    (fun m hm => hnf m (List.mem_append_left _ hm)) (n :: post)
  have hfire := fireStep_ok hwf
    (hnf n (List.mem_append_right _ (List.mem_cons_self n [])))
  have hrest : runLoop env dur s (n :: post)
      = ({ s with isPlaying := false, currentStep := -1 },
         stepEvents env.drumList env.pattern dur n ++ [Event.cursor (-1)],
         false) := by
    simp only [runLoop, hp, if_true, hfire, hstopn, if_true]
    simp [stopPattern, stepEvents, runLoop_not_playing]
  rw [hpre, hrest]
  simp [cleanTrace, stepEvents]

/-- A loop whose steps before `n` are fault-free and unstopped and whose
`fireStep` at `n` throws aborts with the exception: `isPlaying` is left
`true`, the cursor is left at `n`, and the trailing reset never runs. -/
theorem runLoop_crash (env : PlayEnv) (dur : ℚ) {s : SchedState}
    (hp : s.isPlaying = true) (hwf : wfFor env.drumList env.pattern)
    {pre : List ℕ} {n : ℕ} {post : List ℕ} {done : List TriggerCall}
    (hstop : ∀ m ∈ pre, env.stopAt m = false)
    (hnf : ∀ m ∈ pre, ∀ d ∈ env.drumList, env.playFails d.id m = false)
    (hfire : fireStep env.drumList env.pattern env.playFails n
      = .error done) :
    runLoop env dur s (pre ++ n :: post)
      = ({ s with isPlaying := true, currentStep := (n : ℤ) },
         pre.flatMap (stepEvents env.drumList env.pattern dur)
           ++ Event.cursor (n : ℤ) :: done.map Event.trig,
         true) := by
  have hpre := runLoop_clean_front env dur hp hwf hstop hnf (n :: post)
  have hrest : runLoop env dur s (n :: post)
      = ({ s with isPlaying := true, currentStep := (n : ℤ) },
         Event.cursor (n : ℤ) :: done.map Event.trig, true) := by
    simp only [runLoop, hp, if_true, hfire]
  rw [hpre, hrest]

/-! ## Trace projection lemmas -/

theorem cleanTrace_cons (ds : List Drum) (p : Pattern) (dur : ℚ)
    (k : ℕ) (rest : List ℕ) :
    cleanTrace ds p dur (k :: rest)
      = stepEvents ds p dur k ++ cleanTrace ds p dur rest := by
  simp [cleanTrace]

theorem cursorValues_stepEvents (ds : List Drum) (p : Pattern) (dur : ℚ)
    (k : ℕ) : cursorValues (stepEvents ds p dur k) = [(k : ℤ)] := by
  simp [cursorValues, stepEvents, List.filterMap_append, List.filterMap_map,
    Function.comp]

theorem waitValues_stepEvents (ds : List Drum) (p : Pattern) (dur : ℚ)
    (k : ℕ) : waitValues (stepEvents ds p dur k) = [dur] := by
  simp [waitValues, stepEvents, List.filterMap_append, List.filterMap_map,
    Function.comp]

theorem cursorValues_cleanTrace (ds : List Drum) (p : Pattern) (dur : ℚ) :
    ∀ steps : List ℕ,
      cursorValues (cleanTrace ds p dur steps)
        = steps.map (fun k => (k : ℤ)) ++ [-1]
  | [] => by simp [cleanTrace, cursorValues]
  | k :: rest => by
      rw [cleanTrace_cons]
      simp only [cursorValues, List.filterMap_append] at *
      rw [← cursorValues, ← cursorValues, cursorValues_stepEvents,
        cursorValues_cleanTrace ds p dur rest]
      simp

theorem waitValues_cleanTrace (ds : List Drum) (p : Pattern) (dur : ℚ) :
    ∀ steps : List ℕ,
      waitValues (cleanTrace ds p dur steps)
        = List.replicate steps.length dur
  | [] => by simp [cleanTrace, waitValues]
  | k :: rest => by
      rw [cleanTrace_cons]
      simp only [waitValues, List.filterMap_append] at *
      rw [← waitValues, ← waitValues, waitValues_stepEvents,
        waitValues_cleanTrace ds p dur rest]
      simp [List.replicate_succ]

theorem trig_mem_cleanTrace {ds : List Drum} {p : Pattern} {dur : ℚ}
    {steps : List ℕ} {c : TriggerCall}
    (h : Event.trig c ∈ cleanTrace ds p dur steps) :
    ∃ d : Drum, c = mkCall d := by
  simp only [cleanTrace, List.mem_append, List.mem_flatMap, stepEvents,
    activeTriggers, List.mem_cons, List.mem_map, List.mem_singleton,
    List.mem_filter] at h
  rcases h with ⟨k, hk, h⟩ | h
  · rcases h with h | h
    · exact absurd h (by simp)
    rcases h with ⟨c2, ⟨a, ha, hma⟩, hc⟩ | h
    · have hcc : c2 = c := by injection hc
      exact ⟨a, by rw [← hcc, ← hma]⟩
    · exact absurd h (by simp)
  · exact absurd h (by simp)

/-! ## playPattern lemmas -/

theorem playPattern_ready (env : PlayEnv) (s : SchedState)
    (hd : s.drumKitLoaded = true) (ha : s.audioContextSet = true) :
    playPattern env s
      = runLoop env
          ((60 / (env.tempoSched 0 : ℚ)) / ((env.subdivision : ℚ) / 4))
          { s with isPlaying := true } (List.range env.gridSteps) := by
  simp [playPattern, hd, ha]

theorem playPattern_clean (env : PlayEnv) (s : SchedState)
    (hd : s.drumKitLoaded = true) (ha : s.audioContextSet = true)
    (hwf : wfFor env.drumList env.pattern)
    (hstop : ∀ m, env.stopAt m = false)
    (hnf : ∀ m, ∀ d ∈ env.drumList, env.playFails d.id m = false) :
    playPattern env s
      = ({ s with isPlaying := false, currentStep := -1 },
         cleanTrace env.drumList env.pattern
           ((60 / (env.tempoSched 0 : ℚ)) / ((env.subdivision : ℚ) / 4))
           (List.range env.gridSteps), false) := by
  rw [playPattern_ready env s hd ha]
  exact runLoop_clean env _ rfl hwf (fun m _ => hstop m) (fun m _ => hnf m)

theorem range_split {n g : ℕ} (h : n < g) :
    ∃ post, List.range g = List.range n ++ n :: post := by
  obtain ⟨k, rfl⟩ : ∃ k, g = (n + 1) + k := ⟨g - (n + 1), by omega⟩
  refine ⟨(List.range k).map (fun x => n + 1 + x), ?_⟩
  rw [List.range_add, List.range_succ]
  simp [List.append_assoc]

theorem playPattern_stopped (env : PlayEnv) (s : SchedState) {n : ℕ}
    (hd : s.drumKitLoaded = true) (ha : s.audioContextSet = true)
    (hwf : wfFor env.drumList env.pattern)
    (hn : n < env.gridSteps) (hstopn : env.stopAt n = true)
    (hstop : ∀ m < n, env.stopAt m = false)
    (hnf : ∀ m, ∀ d ∈ env.drumList, env.playFails d.id m = false) :
    playPattern env s
      = ({ s with isPlaying := false, currentStep := -1 },
         cleanTrace env.drumList env.pattern
           ((60 / (env.tempoSched 0 : ℚ)) / ((env.subdivision : ℚ) / 4))
           (List.range (n + 1)), false) := by
  rw [playPattern_ready env s hd ha]
  obtain ⟨post, hsplit⟩ := range_split hn
  rw [hsplit]
  rw [runLoop_stopped env _ rfl hwf
    (fun m hm => hstop m (List.mem_range.mp hm)) hstopn
    (fun m _ d hd2 => hnf m d hd2)]
  rw [List.range_succ]

theorem playPattern_crash (env : PlayEnv) (s : SchedState) {n : ℕ}
    {done : List TriggerCall}
    (hd : s.drumKitLoaded = true) (ha : s.audioContextSet = true)
    (hwf : wfFor env.drumList env.pattern)
    (hn : n < env.gridSteps)
    (hstop : ∀ m < n, env.stopAt m = false)
    (hnf : ∀ m < n, ∀ d ∈ env.drumList, env.playFails d.id m = false)
    (hfire : fireStep env.drumList env.pattern env.playFails n
      = .error done) :
    playPattern env s
      = ({ s with isPlaying := true, currentStep := (n : ℤ) },
         (List.range n).flatMap (stepEvents env.drumList env.pattern
           ((60 / (env.tempoSched 0 : ℚ)) / ((env.subdivision : ℚ) / 4)))
           ++ Event.cursor (n : ℤ) :: done.map Event.trig,
         true) := by
  rw [playPattern_ready env s hd ha]
  obtain ⟨post, hsplit⟩ := range_split hn
  rw [hsplit]
  exact runLoop_crash env _ rfl hwf
    (fun m hm => hstop m (List.mem_range.mp hm))
    (fun m hm => hnf m (List.mem_range.mp hm)) hfire

/-! ## toggleCell lemmas -/

theorem set_getD_self {l : List Bool} {i : ℕ} (h : i < l.length) :
    l.set i (l.getD i false) = l := by
  apply List.ext_getElem?
  intro n
  by_cases hn : n = i
  · subst hn
    rw [List.getElem?_set_self h, List.getD_eq_getElem?_getD,
      List.getElem?_eq_getElem h]
    rfl
  · rw [List.getElem?_set_ne (fun hc => hn hc.symm)]

theorem getD_set_self {l : List Bool} {i : ℕ} (h : i < l.length) (b : Bool) :
    (l.set i b).getD i false = b := by
  rw [List.getD_eq_getElem?_getD, List.getElem?_set_self (by simpa using h)]
  rfl

theorem getD_set_ne {l : List Bool} {i j : ℕ} (h : j ≠ i) (b : Bool) :
    (l.set i b).getD j false = l.getD j false := by
  rw [List.getD_eq_getElem?_getD, List.getElem?_set_ne (fun hc => h hc.symm),
    ← List.getD_eq_getElem?_getD]

theorem toggleCell_eq_of_findRow {p : Pattern} {id : String} {step : ℕ}
    {row : List Bool} (h : findRow p id = some row) :
    toggleCell p id step
      = some (setRow p id
          (if step < row.length then
            row.set step (!row.getD step false)
          else
            row ++ List.replicate (step - row.length) false
              ++ [!row.getD step false])) := by
  unfold toggleCell
  rw [h]

/-! ## Claim theorems -/

/-- C1: for every valid grid shape (barCount in {1,2,4,8}, subdivision in
{4,8,16,32}, timeSignature in {3,4,5,6,7}) and every prior pattern state,
after a grid-shape change (the watcher runs `initializePattern` with the
new `gridSteps`) the total step count equals
barCount × subdivision × (timeSignature/4), an integer ≥ 1; the rebuilt
pattern has exactly the drum ids as keys, each exactly once (the key list
equals the duplicate-free drum id list); every row has length `totalSteps`;
old boolean values are kept at every index below the smaller of the old and
new lengths; new trailing cells on growth are `false`; and the new length
itself witnesses that trailing cells beyond it are discarded on shrink. -/
theorem C1_grid_shape_resize (b s t : ℕ) (p : Pattern)
    (hb : b = 1 ∨ b = 2 ∨ b = 4 ∨ b = 8)
    (hs : s = 4 ∨ s = 8 ∨ s = 16 ∨ s = 32)
    (ht : t = 3 ∨ t = 4 ∨ t = 5 ∨ t = 6 ∨ t = 7) :
    gridStepsQ b s t = (totalSteps b s t : ℚ)
    ∧ 1 ≤ totalSteps b s t
    ∧ (initializePattern p (totalSteps b s t)).map Prod.fst
        = drums.map Drum.id
    ∧ (drums.map Drum.id).Nodup
    ∧ ∀ d ∈ drums, ∃ row,
        findRow (initializePattern p (totalSteps b s t)) d.id = some row
        ∧ row.length = totalSteps b s t
        ∧ (∀ old, findRow p d.id = some old →
            (∀ i, i < old.length → i < totalSteps b s t →
              row.getD i false = old.getD i false)
            ∧ (∀ i, old.length ≤ i → i < totalSteps b s t →
              row.getD i false = false))
        ∧ (findRow p d.id = none →
            row = List.replicate (totalSteps b s t) false) := by
  have hdvd : 4 ∣ s := by
    rcases hs with rfl | rfl | rfl | rfl <;> norm_num
  have hs4 : 4 ≤ s := by
    rcases hs with rfl | rfl | rfl | rfl <;> norm_num
  have hb1 : 1 ≤ b := by
    rcases hb with rfl | rfl | rfl | rfl <;> norm_num
  have ht1 : 1 ≤ t := by
    rcases ht with rfl | rfl | rfl | rfl | rfl <;> norm_num
  refine ⟨gridStepsQ_eq_totalSteps hdvd, totalSteps_pos hb1 hs4 ht1,
    map_fst_initializePattern p _, drums_ids_nodup, ?_⟩
  intro d hd
  refine ⟨resizeRow (findRow p d.id) (totalSteps b s t),
    findRow_initializePattern hd p _, length_resizeRow _ _, ?_, ?_⟩
  · intro old hold
    rw [hold]
    exact ⟨fun i hi1 hi2 => getD_resizeRow_low hi1 hi2,
           fun i hi1 hi2 => getD_resizeRow_high hi1 hi2⟩
  · intro hnone
    rw [hnone]
    exact resizeRow_none _

/-- C1 witness: shape (2, 8, 3) gives 12 steps; the prior pattern has a
3-cell kick row whose values survive at indices 0–2. -/
theorem C1_witness :
    ((2 : ℕ) = 1 ∨ (2 : ℕ) = 2 ∨ (2 : ℕ) = 4 ∨ (2 : ℕ) = 8)
    ∧ ((8 : ℕ) = 4 ∨ (8 : ℕ) = 8 ∨ (8 : ℕ) = 16 ∨ (8 : ℕ) = 32)
    ∧ ((3 : ℕ) = 3 ∨ (3 : ℕ) = 4 ∨ (3 : ℕ) = 5 ∨ (3 : ℕ) = 6 ∨ (3 : ℕ) = 7)
    ∧ (gridStepsQ 2 8 3 = (totalSteps 2 8 3 : ℚ)
      ∧ 1 ≤ totalSteps 2 8 3
      ∧ (initializePattern [("kick", [true, false, true])]
          (totalSteps 2 8 3)).map Prod.fst = drums.map Drum.id
      ∧ (drums.map Drum.id).Nodup
      ∧ ∀ d ∈ drums, ∃ row,
          findRow (initializePattern [("kick", [true, false, true])]
            (totalSteps 2 8 3)) d.id = some row
          ∧ row.length = totalSteps 2 8 3
          ∧ (∀ old, findRow [("kick", [true, false, true])] d.id = some old →
              (∀ i, i < old.length → i < totalSteps 2 8 3 →
                row.getD i false = old.getD i false)
              ∧ (∀ i, old.length ≤ i → i < totalSteps 2 8 3 →
                row.getD i false = false))
          ∧ (findRow [("kick", [true, false, true])] d.id = none →
              row = List.replicate (totalSteps 2 8 3) false)) :=
  ⟨by decide, by decide, by decide,
   C1_grid_shape_resize 2 8 3 [("kick", [true, false, true])]
     (by decide) (by decide) (by decide)⟩

/-- C10: until initialization has run (`initializePattern` is first called
only after the soundfont load succeeds, or on a later grid-shape change),
the `pattern` ref still holds its initial `{}`; every `toggleCell` call on
it, for every instrument id and step, reads an index of `undefined` and
throws a `TypeError` (embedded as `none`) instead of toggling. -/
theorem C10_uninitialized_pattern :
    initialPattern = []
    ∧ ∀ (id : String) (step : ℕ), toggleCell initialPattern id step = none :=
  ⟨rfl, fun _ _ => rfl⟩

/-- C8 counterexample: the pattern holds a single 2-step kick row
(`totalSteps` = 2); `toggleCell "kick" 2` has a known instrument but a step
outside `[0, 2)`.  The claim says the call fails (raises or is a no-op)
and leaves every entry and its length unchanged; instead the code writes
`true` at index 2, growing the row to length 3. -/
theorem C8_counterexample :
    toggleCell [("kick", [false, false])] "kick" 2
        = some [("kick", [false, false, true])]
    ∧ ¬(toggleCell [("kick", [false, false])] "kick" 2 = none
        ∨ toggleCell [("kick", [false, false])] "kick" 2
            = some [("kick", [false, false])]) := by
  decide

/-- C8 (amended): `toggleCell` with an unknown instrument id throws
(`none`, pattern untouched); with a known id and a step at or beyond the
length of the row it neither throws nor no-ops: it writes `true` at that step,
extending the row by falsy padding to length `step + 1`, so the behavior
on invalid input is not one consistent OutOfRange outcome. -/
theorem C8_out_of_range :
    (∀ (p : Pattern) (id : String) (step : ℕ),
      findRow p id = none → toggleCell p id step = none)
    ∧ (∀ (p : Pattern) (id : String) (step : ℕ) (row : List Bool),
        findRow p id = some row → row.length ≤ step →
        toggleCell p id step
          = some (setRow p id
              (row ++ List.replicate (step - row.length) false ++ [true]))) := by
  constructor
  · intro p id step h
    unfold toggleCell
    rw [h]
  · intro p id step row h hlen
    have hget : row.getD step false = false := by
      rw [List.getD_eq_getElem?_getD, List.getElem?_eq_none hlen]
      rfl
    rw [toggleCell_eq_of_findRow h, if_neg (Nat.not_lt.mpr hlen), hget]
    rfl

/-- C8 witness: both amended branches at concrete inputs — unknown id
"cymbal" throws; known id "kick" at step 3 of a 2-cell row appends
`[false, true]`. -/
theorem C8_witness :
    (findRow [("kick", [false, false])] "cymbal" = none
      ∧ toggleCell [("kick", [false, false])] "cymbal" 0 = none)
    ∧ (findRow [("kick", [false, false])] "kick" = some [false, false]
      ∧ (2 : ℕ) ≤ 3
      ∧ toggleCell [("kick", [false, false])] "kick" 3
          = some (setRow [("kick", [false, false])] "kick"
              ([false, false] ++ List.replicate 1 false ++ [true]))) :=
  ⟨⟨rfl, C8_out_of_range.1 [("kick", [false, false])] "cymbal" 0 rfl⟩,
   ⟨rfl, by decide,
    C8_out_of_range.2 [("kick", [false, false])] "kick" 3 [false, false]
      rfl (by decide)⟩⟩

/-- C9: for a known instrument id (with the keys of the pattern distinct, as
`initializePattern` guarantees) and a step inside the row, `toggleCell`
succeeds; applying it twice returns exactly the original pattern, and a
single application changes only that one cell: the toggled row differs
from the old row exactly at `step` (negated there, length unchanged) and
the rows of all other instruments are untouched. -/
theorem C9_toggle_involutive (p : Pattern) (id : String) (step : ℕ)
    (row : List Bool) (hn : keysNodup p) (h : findRow p id = some row)
    (hlt : step < row.length) :
    ∃ p1, toggleCell p id step = some p1
      ∧ toggleCell p1 id step = some p
      ∧ findRow p1 id = some (row.set step (!row.getD step false))
      ∧ (∀ id2, id2 ≠ id → findRow p1 id2 = findRow p id2)
      ∧ (row.set step (!row.getD step false)).length = row.length
      ∧ (row.set step (!row.getD step false)).getD step false
          = !row.getD step false
      ∧ ∀ j, j ≠ step →
          (row.set step (!row.getD step false)).getD j false
            = row.getD j false := by
  have h1 : toggleCell p id step
      = some (setRow p id (row.set step (!row.getD step false))) := by
    rw [toggleCell_eq_of_findRow h, if_pos hlt]
  have hfind1 : findRow (setRow p id (row.set step (!row.getD step false))) id
      = some (row.set step (!row.getD step false)) :=
    findRow_setRow_self h _
  have hlen : (row.set step (!row.getD step false)).length = row.length :=
    List.length_set row step _
  have hlt2 : step < (row.set step (!row.getD step false)).length := by
    rw [hlen]
    exact hlt
  have hgd : (row.set step (!row.getD step false)).getD step false
      = !row.getD step false := getD_set_self hlt _
  have hback : (row.set step (!row.getD step false)).set step
      (!(row.set step (!row.getD step false)).getD step false) = row := by
    rw [hgd, Bool.not_not, List.set_set]
    exact set_getD_self hlt
  have h2 : toggleCell (setRow p id (row.set step (!row.getD step false)))
      id step = some p := by
    rw [toggleCell_eq_of_findRow hfind1, if_pos hlt2, hback,
      setRow_setRow, setRow_self hn h]
  exact ⟨setRow p id (row.set step (!row.getD step false)), h1, h2, hfind1,
    fun id2 hne => findRow_setRow_ne _ hne, hlen, hgd,
    fun j hj => getD_set_ne hj _⟩

/-- C9 witness: toggling the only kick step in `kickPattern` twice
returns the original pattern. -/
theorem C9_witness :
    keysNodup kickPattern
    ∧ findRow kickPattern "kick" = some [true]
    ∧ (0 : ℕ) < 1
    ∧ ∃ p1, toggleCell kickPattern "kick" 0 = some p1
        ∧ toggleCell p1 "kick" 0 = some kickPattern
        ∧ findRow p1 "kick" = some ([true].set 0 (!([true].getD 0 false)))
        ∧ (∀ id2, id2 ≠ "kick" → findRow p1 id2 = findRow kickPattern id2)
        ∧ ([true].set 0 (!([true].getD 0 false))).length = [true].length
        ∧ ([true].set 0 (!([true].getD 0 false))).getD 0 false
            = !([true].getD 0 false)
        ∧ ∀ j, j ≠ 0 →
            ([true].set 0 (!([true].getD 0 false))).getD j false
              = [true].getD j false :=
  ⟨by decide, rfl, by decide,
   C9_toggle_involutive kickPattern "kick" 0 [true] (by decide) rfl
     (by decide)⟩

/-- C2: `stopPattern` immediately sets the cursor to −1 and clears
`isPlaying` (Idle); on an already-idle state it changes nothing; and when
the first stop request of a fault-free ready run arrives during the await
of step `n`, the whole run trace is exactly the clean trace of steps `0..n`
(each one cursor assignment, the triggers of that step, one wait) followed by
the final cursor reset — no trigger beyond the step in flight — and the
run ends Idle at cursor −1 (the running-check sits at the top of each
iteration, before any trigger fires). -/
theorem C2_stop_semantics :
    (∀ s : SchedState,
      (stopPattern s).currentStep = -1 ∧ (stopPattern s).isPlaying = false)
    ∧ (∀ s : SchedState, s.isPlaying = false → s.currentStep = -1 →
        stopPattern s = s)
    ∧ ∀ (env : PlayEnv) (s : SchedState) (n : ℕ),
        s.drumKitLoaded = true → s.audioContextSet = true →
        wfFor env.drumList env.pattern →
        n < env.gridSteps → env.stopAt n = true →
        (∀ m < n, env.stopAt m = false) →
        (∀ m, ∀ d ∈ env.drumList, env.playFails d.id m = false) →
        playPattern env s
          = ({ s with isPlaying := false, currentStep := -1 },
             cleanTrace env.drumList env.pattern
               ((60 / (env.tempoSched 0 : ℚ)) / ((env.subdivision : ℚ) / 4))
               (List.range (n + 1)), false) := by
  refine ⟨fun s => ⟨rfl, rfl⟩, ?_, ?_⟩
  · intro s h1 h2
    cases s
    simp_all [stopPattern]
  · intro env s n hd ha hwf hn hstopn hstop hnf
    exact playPattern_stopped env s hd ha hwf hn hstopn hstop hnf

/-- C2 witness: stopping the idle ready state is a no-op, and a run of
`envStop` (stop requested during the await of step 1 of 4 steps) executes
exactly steps 0 and 1. -/
theorem C2_witness :
    ((stopPattern readyIdle).currentStep = -1
      ∧ (stopPattern readyIdle).isPlaying = false)
    ∧ stopPattern readyIdle = readyIdle
    ∧ playPattern envStop readyIdle
        = ({ readyIdle with isPlaying := false, currentStep := -1 },
           cleanTrace envStop.drumList envStop.pattern
             ((60 / (envStop.tempoSched 0 : ℚ))
               / ((envStop.subdivision : ℚ) / 4))
             (List.range 2), false) :=
  ⟨C2_stop_semantics.1 readyIdle,
   C2_stop_semantics.2.1 readyIdle rfl rfl,
   C2_stop_semantics.2.2 envStop readyIdle 1 rfl rfl (by decide) (by decide)
     rfl (by decide) (fun m d _ => rfl)⟩

/-- C3: a fault-free, unstopped run from Idle with the collaborator ready
produces exactly the clean trace: the cursor visits `0..gridSteps−1` once
each in order and ends at −1 (run returns to Idle), each step fires
exactly the drums whose pattern cell at the cursor is `true` (the
`activeTriggers` filter inside `cleanTrace`), and every fired trigger
carries gain 1.5 and duration 0.2. -/
theorem C3_full_run (env : PlayEnv) (s : SchedState)
    (_hidle : s.isPlaying = false)
    (hd : s.drumKitLoaded = true) (ha : s.audioContextSet = true)
    (hwf : wfFor env.drumList env.pattern)
    (hstop : ∀ m, env.stopAt m = false)
    (hnf : ∀ m, ∀ d ∈ env.drumList, env.playFails d.id m = false) :
    playPattern env s
      = ({ s with isPlaying := false, currentStep := -1 },
         cleanTrace env.drumList env.pattern
           ((60 / (env.tempoSched 0 : ℚ)) / ((env.subdivision : ℚ) / 4))
           (List.range env.gridSteps), false)
    ∧ cursorValues (playPattern env s).2.1
        = (List.range env.gridSteps).map (fun k => (k : ℤ)) ++ [-1]
    ∧ ∀ c : TriggerCall, Event.trig c ∈ (playPattern env s).2.1 →
        c.gain = 1.5 ∧ c.duration = 0.2 := by
  have h := playPattern_clean env s hd ha hwf hstop hnf
  refine ⟨h, ?_, ?_⟩
  · rw [h]
    exact cursorValues_cleanTrace _ _ _ _
  · intro c hc
    rw [h] at hc
    obtain ⟨d2, rfl⟩ := trig_mem_cleanTrace hc
    exact ⟨rfl, rfl⟩

/-- C3 witness: the example given in the spec — kick on at step 0 only — on a
1-step grid: the run fires exactly the kick call and returns to Idle. -/
theorem C3_witness :
    readyIdle.isPlaying = false
    ∧ (playPattern envOne readyIdle
        = ({ readyIdle with isPlaying := false, currentStep := -1 },
           cleanTrace envOne.drumList envOne.pattern
             ((60 / (envOne.tempoSched 0 : ℚ))
               / ((envOne.subdivision : ℚ) / 4))
             (List.range envOne.gridSteps), false)
      ∧ cursorValues (playPattern envOne readyIdle).2.1
          = (List.range envOne.gridSteps).map (fun k => (k : ℤ)) ++ [-1]
      ∧ ∀ c : TriggerCall, Event.trig c ∈ (playPattern envOne readyIdle).2.1 →
          c.gain = 1.5 ∧ c.duration = 0.2) :=
  ⟨rfl, C3_full_run envOne readyIdle rfl rfl rfl (by decide)
    (fun m => rfl) (fun m d _ => rfl)⟩

/-- C4 counterexample: in `envTempo` the tempo ref is edited from 120 to
240 during the await of step 3, so the claim says the wait of step 4 is
(60/240)/(16/4) = 1/16 s; but the code computed `stepDuration` once before
the loop, and every one of the 8 waits — including that of step 4 — is
1/8 s. -/
theorem C4_counterexample :
    waitValues (playPattern envTempo readyIdle).2.1
        = List.replicate 8 ((1 : ℚ) / 8)
    ∧ (60 / (envTempo.tempoSched 4 : ℚ)) / ((envTempo.subdivision : ℚ) / 4)
        = (1 : ℚ) / 16
    ∧ ((1 : ℚ) / 8) ≠ (1 : ℚ) / 16 := by
  refine ⟨?_, ?_, by norm_num⟩
  · have h := playPattern_clean envTempo readyIdle rfl rfl (by decide)
      (fun m => rfl) (fun m d _ => rfl)
    rw [h, waitValues_cleanTrace]
    norm_num [envTempo]
  · norm_num [envTempo]

/-- C4 (amended): the wait duration of every step of a run equals
(60 / tempo) / (subdivision / 4) computed from the tempo read once at
`start()` (`tempoSched 0`); a tempo change issued while Running has no
effect on the wait of any later step until the next `start()`. -/
theorem C4_captured_tempo (env : PlayEnv) (s : SchedState)
    (hd : s.drumKitLoaded = true) (ha : s.audioContextSet = true)
    (hwf : wfFor env.drumList env.pattern)
    (hstop : ∀ m, env.stopAt m = false)
    (hnf : ∀ m, ∀ d ∈ env.drumList, env.playFails d.id m = false) :
    waitValues (playPattern env s).2.1
      = List.replicate env.gridSteps
          ((60 / (env.tempoSched 0 : ℚ)) / ((env.subdivision : ℚ) / 4)) := by
  rw [playPattern_clean env s hd ha hwf hstop hnf, waitValues_cleanTrace]
  simp

/-- C4 witness: the amended statement evaluated on `envTempo`. -/
theorem C4_witness :
    waitValues (playPattern envTempo readyIdle).2.1
      = List.replicate envTempo.gridSteps
          ((60 / (envTempo.tempoSched 0 : ℚ))
            / ((envTempo.subdivision : ℚ) / 4)) :=
  C4_captured_tempo envTempo readyIdle rfl rfl (by decide)
    (fun m => rfl) (fun m d _ => rfl)

/-- C5 counterexample: in `envFail` both the snare and the kick are on at
step 0 and `drumKit.play` throws for the snare.  The claim says the
remaining instruments are still processed and playback proceeds; instead
the exception aborts everything: the kick (on at step 0, `cellOn` true)
never fires, no trigger at all is recorded, step 1 never runs, and the
state is left with `isPlaying = true` and the cursor stuck at 0. -/
theorem C5_counterexample :
    playPattern envFail readyIdle
      = ({ readyIdle with isPlaying := true, currentStep := 0 },
         [Event.cursor 0], true)
    ∧ cellOn envFail.pattern "kick" 0 = true
    ∧ trigCount (playPattern envFail readyIdle).2.1 = 0 := by
  decide

/-- C5 (amended): when `drumKit.play` throws for an instrument of a step,
the step loop aborts instead of continuing: instruments after the failing
one in `drums` order are skipped, no later step runs, the trailing reset
never executes (`isPlaying` stays `true`, cursor stuck at that step), and
the trace ends with the triggers dispatched before the throw. -/
theorem C5_trigger_failure_aborts (env : PlayEnv) (s : SchedState) (n : ℕ)
    (ds1 ds2 : List Drum) (f : Drum)
    (hd : s.drumKitLoaded = true) (ha : s.audioContextSet = true)
    (hsplit : env.drumList = ds1 ++ f :: ds2)
    (hwf : wfFor env.drumList env.pattern)
    (hn : n < env.gridSteps)
    (hstop : ∀ m < n, env.stopAt m = false)
    (hnfpre : ∀ m < n, ∀ d ∈ env.drumList, env.playFails d.id m = false)
    (hnf1 : ∀ d ∈ ds1, env.playFails d.id n = false)
    (hon : cellOn env.pattern f.id n = true)
    (hf : env.playFails f.id n = true) :
    playPattern env s
      = ({ s with isPlaying := true, currentStep := (n : ℤ) },
         (List.range n).flatMap (stepEvents env.drumList env.pattern
           ((60 / (env.tempoSched 0 : ℚ)) / ((env.subdivision : ℚ) / 4)))
           ++ Event.cursor (n : ℤ)
             :: (activeTriggers ds1 env.pattern n).map Event.trig,
         true) := by
  have hfire : fireStep env.drumList env.pattern env.playFails n
      = .error (activeTriggers ds1 env.pattern n) := by
    rw [hsplit]
    exact fireStep_error (hsplit ▸ hwf) hnf1 hon hf
  exact playPattern_crash env s hd ha hwf hn hstop hnfpre hfire

/-- C5 witness: the amended statement at `envFail` (snare fails at step 0,
drums split around the snare). -/
theorem C5_witness :
    envFail.playFails "snare" 0 = true
    ∧ playPattern envFail readyIdle
        = ({ readyIdle with isPlaying := true, currentStep := (0 : ℤ) },
           (List.range 0).flatMap (stepEvents envFail.drumList envFail.pattern
             ((60 / (envFail.tempoSched 0 : ℚ))
               / ((envFail.subdivision : ℚ) / 4)))
             ++ Event.cursor (0 : ℤ)
               :: (activeTriggers (drums.take 6) envFail.pattern 0).map
                    Event.trig,
           true) :=
  ⟨rfl,
   C5_trigger_failure_aborts envFail readyIdle 0 (drums.take 6)
     [⟨"kick", "Kick", "kick", 36⟩] ⟨"snare", "Snare", "snare", 38⟩
     rfl rfl rfl (by decide) (by decide) (by decide) (by decide) (by decide)
     rfl rfl⟩

/-- C6: whenever the collaborator is not ready (`drumKit` or
`audioContext` still null), `playPattern` reports the not-ready condition
through `errorMessage` and returns without throwing; `isPlaying` and the
cursor are unchanged, so an idle scheduler stays Idle at cursor −1. -/
theorem C6_not_ready (env : PlayEnv) (s : SchedState)
    (h : s.drumKitLoaded = false ∨ s.audioContextSet = false) :
    playPattern env s
      = ({ s with errorMessage :=
            "Drum kit not loaded yet. Please wait or refresh the page." },
         [], false)
    ∧ (playPattern env s).1.isPlaying = s.isPlaying
    ∧ (playPattern env s).1.currentStep = s.currentStep
    ∧ (s.currentStep = -1 → (playPattern env s).1.currentStep = -1) := by
  have heq : playPattern env s
      = ({ s with errorMessage :=
            "Drum kit not loaded yet. Please wait or refresh the page." },
         [], false) := by
    rcases h with h | h <;> simp [playPattern, h]
  refine ⟨heq, ?_, ?_, ?_⟩
  · rw [heq]
  · rw [heq]
  · intro hc
    rw [heq]
    exact hc

/-- C6 witness: starting while the soundfont still loads. -/
theorem C6_witness :
    (loadingIdle.drumKitLoaded = false ∨ loadingIdle.audioContextSet = false)
    ∧ playPattern envOne loadingIdle
        = ({ loadingIdle with errorMessage :=
              "Drum kit not loaded yet. Please wait or refresh the page." },
           [], false)
    ∧ (loadingIdle.currentStep = -1 →
        (playPattern envOne loadingIdle).1.currentStep = -1) :=
  ⟨Or.inl rfl,
   (C6_not_ready envOne loadingIdle (Or.inl rfl)).1,
   (C6_not_ready envOne loadingIdle (Or.inl rfl)).2.2.2⟩

/-- C7 counterexample: `playingState` is already Running (cursor 5) and
ready; the claim says `playPattern` is then a no-op that neither starts a
loop nor resets the cursor to 0.  Instead the call runs a full fresh loop
over `envOne`: the trace assigns cursor 0, fires one trigger, and the
state ends changed (Idle at −1). -/
theorem C7_counterexample :
    (playPattern envOne playingState).1 ≠ playingState
    ∧ Event.cursor 0 ∈ (playPattern envOne playingState).2.1
    ∧ trigCount (playPattern envOne playingState).2.1 = 1
    ∧ (playPattern envOne playingState).2.1 ≠ [] := by
  decide

/-- C7 (amended): `playPattern` performs no already-running check — called
on a ready state it behaves identically whether `isPlaying` is `true` or
`false`: it starts a fresh loop from step 0 (re-entry is prevented only by
the UI disabling the Play button while `isPlaying`). -/
theorem C7_no_running_guard (env : PlayEnv) (s : SchedState)
    (hd : s.drumKitLoaded = true) (ha : s.audioContextSet = true)
    (_hp : s.isPlaying = true) :
    playPattern env s = playPattern env { s with isPlaying := false } := by
  simp [playPattern, hd, ha]

/-- C7 witness: the amended statement at the Running state. -/
theorem C7_witness :
    playingState.isPlaying = true
    ∧ playPattern envOne playingState
        = playPattern envOne { playingState with isPlaying := false } :=
  ⟨rfl, C7_no_running_guard envOne playingState rfl rfl rfl⟩

end DrumGrid
